import Mathlib

/-!
Verification of the ReAct agent core (src/react/agent.py, src/react/plan_executor.py,
src/react/reflection_engine.py) as a shallow embedding.

Modelling conventions:
* Python values that flow through the executor are modelled by `PyVal`; Python
  truthiness by `truthy`; Python exceptions by `Except PyErr`.
* The external model gateway (src/model/groq.py) is out of scope per the spec:
  each blocking call's outcome is supplied by an environment.  A planner call
  (`get_plan`) can raise, return a falsy value (empty string / `{}`), return a
  string that `json.loads` rejects (or that does not behave as a plan dict), or
  return a string parsing to a `Plan`.  A critique call (`reflect_on_plan`)
  either fails (raises, or its verdict is unparseable) or yields a `Verdict`.
* Logging, printing and the interaction-history writes are elided: they do not
  affect control flow or any returned value (the history only feeds prompt
  text, and every model response is environment-supplied).
* Traces: the embedding records the externally observable calls
  (planner calls, critique calls, tool invocations) as `AgentEvent`s so that
  the temporal claims (zero planner calls, no revision after convergence,
  no tool dispatch) can be stated about the order of calls.
-/

/-- Python-style values as handled by the agent/executor code. -/
inductive PyVal where
  | none
  | bool (b : Bool)
  | str (s : String)
  | dict (fields : List (String × PyVal))
  | list (items : List PyVal)
deriving Repr

/-- Python exceptions that the embedded code can raise. -/
inductive PyErr where
  | keyError (k : String)
  | typeError
  | indexError
  | valueError
  | generic
deriving Repr, DecidableEq

/-- Python truthiness (`if not result: ...`) for the values above. -/
def truthy : PyVal → Bool
  | PyVal.none => false
  | PyVal.bool b => b
  | PyVal.str s => !s.isEmpty
  | PyVal.dict fields => !fields.isEmpty
  | PyVal.list items => !items.isEmpty

/-- Association-list lookup used to model Python dict access on string keys. -/
def lookupKV (k : String) : List (String × PyVal) → Option PyVal
  | [] => Option.none
  | (k', v) :: rest => if k' == k then some v else lookupKV k rest

/-- Python `d[k]` on a dict-shaped value: `KeyError` when the key is missing,
`TypeError` when the value is not a dict (e.g. `"text"["summary"]`). -/
def pyGetItemStr (v : PyVal) (k : String) : Except PyErr PyVal :=
  match v with
  | PyVal.dict fields =>
    match lookupKV k fields with
    | some x => Except.ok x
    | Option.none => Except.error (PyErr.keyError k)
  | _ => Except.error PyErr.typeError

/-- `some v` iff the value is a dict containing key `k`
(models `isinstance(result, dict) and k in result`). -/
def dictKey? (v : PyVal) (k : String) : Option PyVal :=
  match v with
  | PyVal.dict fields => lookupKV k fields
  | _ => Option.none

/-- Character-list prefix test (used to state "classification starts with unsafe"). -/
def prefixOfCL : List Char → List Char → Bool
  | [], _ => true
  | _ :: _, [] => false
  | a :: as, b :: bs => a == b && prefixOfCL as bs

/-- Character-list substring test: models Python `needle in haystack` on strings
(the agent's `"unsafe" in result` check). -/
def subCL (n : List Char) : List Char → Bool
  | [] => n.isEmpty
  | c :: rest => prefixOfCL n (c :: rest) || subCL n rest

/-- Python `k in v` for a string needle `k`: key membership on dicts, substring
on strings, element membership on lists, `TypeError` otherwise. -/
def pyInStrKey (k : String) : PyVal → Except PyErr Bool
  | PyVal.str s => Except.ok (subCL k.data s.data)
  | PyVal.dict fields => Except.ok (fields.any (fun kv => kv.1 == k))
  | PyVal.list items =>
    Except.ok (items.any (fun it =>
      match it with
      | PyVal.str t => t == k
      | _ => false))
  | _ => Except.error PyErr.typeError

/-- Python iteration over a value (`for x in v`): list elements, string
characters, dict keys; `TypeError` otherwise. -/
def pyIterate : PyVal → Except PyErr (List PyVal)
  | PyVal.list items => Except.ok items
  | PyVal.str s => Except.ok (s.data.map (fun c => PyVal.str (String.mk [c])))
  | PyVal.dict fields => Except.ok (fields.map (fun kv => PyVal.str kv.1))
  | _ => Except.error PyErr.typeError

/-- Python `str(v)`.  For strings it is the string itself (the only case the
claims exercise); the exact repr text of containers is not modelled. -/
def pyStr : PyVal → String
  | PyVal.none => "None"
  | PyVal.bool true => "True"
  | PyVal.bool false => "False"
  | PyVal.str s => s
  | PyVal.dict _ => "{...}"
  | PyVal.list _ => "[...]"

/-- Python `sep.join(vals)`: `TypeError` unless every element is a string. -/
def asStrs : List PyVal → Except PyErr (List String)
  | [] => Except.ok []
  | PyVal.str s :: rest => do
    let t ← asStrs rest
    pure (s :: t)
  | _ :: _ => Except.error PyErr.typeError

def pyJoinStrs (sep : String) (vals : List PyVal) : Except PyErr String := do
  let ss ← asStrs vals
  pure (String.intercalate sep ss)

/-- A `tool_calls` entry of a plan: `{"tool": ..., "args": {...}}`. -/
structure ToolCallSpec where
  tool : String
  args : PyVal
deriving Repr

/-- The planner's wire schema (spec section 6).  Optional fields model keys that
a parsed plan dict may lack; accessing a missing one raises `KeyError` exactly
where the source subscripts the dict.  `requires_tools` is the truthiness of
`plan.get("requires_tools", True)` / `plan["requires_tools"]`. -/
structure Plan where
  requires_tools : Bool
  direct_response : Option String
  thought : Option String
  plan : Option (List String)
  tool_calls : Option (List ToolCallSpec)
deriving Repr

/-- A parsed reflection verdict.  `requires_changes` is the truthiness of
`verdict.get("requires_changes", False)`; `reflection` is the rationale text
(schema-conformant verdicts carry it; the synthetic failure verdicts built by
the code always do). -/
structure Verdict where
  requires_changes : Bool
  reflection : String
deriving Repr

/-- Tool registry: name to invocation function.  Per the spec's tool contract a
tool returns a result value or the failure sentinel (modelled as a falsy
`PyVal`), never an escaping exception. -/
def Registry := String → Option (PyVal → PyVal)

/-- Agent.use_tool / PlanExecutor._execute_tool: unregistered name logs and
returns `False`; otherwise the tool function is invoked with the args. -/
def execTool (reg : Registry) (name : String) (args : PyVal) : PyVal :=
  match reg name with
  | Option.none => PyVal.bool false
  | some f => f args

/-- The names actually invoked (in order) by a sequence of tool calls:
a registered entry's tool runs, an unregistered one is skipped. -/
def invokedTools (reg : Registry) : List ToolCallSpec → List String
  | [] => []
  | c :: rest =>
    match reg c.tool with
    | some _ => c.tool :: invokedTools reg rest
    | Option.none => invokedTools reg rest

/-- One collected entry of PlanExecutor.execute_plan's `tool_results`:
`{"tool": tool_name, "result": result}`. -/
structure ToolResultEntry where
  tool : String
  result : PyVal
deriving Repr

/-- PlanExecutor.execute_plan's collection loop (lines 31-42): invoke each
entry in listed order, `continue` on a falsy result, append otherwise. -/
def collectToolResults (reg : Registry) : List ToolCallSpec → List ToolResultEntry
  | [] => []
  | c :: rest =>
    let result := execTool reg c.tool c.args
    if truthy result then
      { tool := c.tool, result := result } :: collectToolResults reg rest
    else
      collectToolResults reg rest

/-- Agent.execute's inline collection loop (agent.py lines 428-436): same
skip-on-falsy filter but collecting the raw result values. -/
def agentCollectResults (reg : Registry) : List ToolCallSpec → List PyVal
  | [] => []
  | c :: rest =>
    let result := execTool reg c.tool c.args
    if truthy result then
      result :: agentCollectResults reg rest
    else
      agentCollectResults reg rest

/-- PlanExecutor._format_tool_result. -/
def peFormatToolResult (tool_name : String) (result : PyVal) : Except PyErr PyVal :=
  -- if isinstance(result, dict) and "error" in result
  match dictKey? result "error" with
  | some v => Except.ok (PyVal.str ("Error from " ++ tool_name ++ ": " ++ pyStr v))
  | Option.none =>
    if tool_name == "google_search" || tool_name == "wikipedia_search" then do
      let b ← pyInStrKey "enriched_results" result
      if b then do
        let er ← pyGetItemStr result "enriched_results"
        let items ← pyIterate er
        let parts ← items.mapM (fun item => do
          let t ← pyGetItemStr item "title"
          let s ← pyGetItemStr item "summary"
          pure (pyStr t ++ ":\n" ++ pyStr s ++ "\n\n"))
        pure (PyVal.str (String.join parts))
      else
        -- formatted_result = result["summary"] (returned as-is)
        pyGetItemStr result "summary"
    else if tool_name == "get_weather" then
      match result with
      | PyVal.dict fields =>
        match lookupKV "temperature" fields with
        | some _ => do
          let loc ← pyGetItemStr result "location"
          let temp ← pyGetItemStr result "temperature"
          let feels ← pyGetItemStr result "feels_like"
          let desc ← pyGetItemStr result "description"
          let hum ← pyGetItemStr result "humidity"
          let wind ← pyGetItemStr result "wind_speed"
          pure (PyVal.str ("The temperature in " ++ pyStr loc ++ " is " ++ pyStr temp ++
            "°C, Feels like: " ++ pyStr feels ++ "°C, Description: " ++ pyStr desc ++
            ", Humidity: " ++ pyStr hum ++ "%, Wind Speed: " ++ pyStr wind ++ " m/s."))
        | Option.none => pure (PyVal.str (pyStr result))
      | _ => Except.ok (PyVal.str (pyStr result))
    else
      Except.ok (PyVal.str (pyStr result))

/-- Dict lookup on a formatted-results entry, `KeyError` on a missing key. -/
def kvGet (fr : List (String × PyVal)) (k : String) : Except PyErr PyVal :=
  match lookupKV k fr with
  | some v => Except.ok v
  | Option.none => Except.error (PyErr.keyError k)

/-- The `formatted_results` construction in _synthesize_results (lines 95-108):
skip falsy results, format the rest, build `{"tool": ..., "result": ...}`. -/
def peFormatEntries : List ToolResultEntry → Except PyErr (List (List (String × PyVal)))
  | [] => Except.ok []
  | e :: rest =>
    if truthy e.result = false then peFormatEntries rest
    else do
      let f ← peFormatToolResult e.tool e.result
      let tail ← peFormatEntries rest
      pure ([("tool", PyVal.str e.tool), ("result", f)] :: tail)

/-- The synthesis prompt of _synthesize_results (surrounding indentation of the
source's triple-quoted literal abbreviated to newlines). -/
def synthPrompt (original_query context : String) : String :=
  "I need to provide a comprehensive answer to this query: \"" ++ original_query ++ "\"\n\n" ++
  "I have gathered the following information from different tools:\n\n" ++ context ++ "\n\n" ++
  "Please synthesize this information into a coherent, helpful response that\n" ++
  "directly addresses the user's query. Make sure the response flows naturally\n" ++
  "and doesn't explicitly mention which tool provided which information unless\n" ++
  "it's relevant to the answer."

/-- PlanExecutor._synthesize_results.  `gen` is the external `generate` call
(`Except.error` models it raising).  Note the except-branch looks up key
`"formatted_result"` on entries that were built with keys `"tool"`/`"result"`. -/
def peSynthesizeResults (gen : String → Except Unit String) (original_query : String)
    (tool_results : List ToolResultEntry) : Except PyErr PyVal := do
  let formatted ← peFormatEntries tool_results
  match formatted with
  | [fr] => kvGet fr "result"           -- len(formatted_results) == 1
  | _ => do
    let parts ← formatted.mapM (fun fr => do
      let t ← kvGet fr "tool"
      let r ← kvGet fr "result"
      pure ("Information from " ++ pyStr t ++ ":\n" ++ pyStr r))
    let context := String.intercalate "\n\n" parts
    match gen (synthPrompt original_query context) with
    | Except.ok s => pure (PyVal.str s)
    | Except.error _ => do
      -- fallback: "\n\n".join(f"Information from {fr['tool']}:\n{fr['formatted_result']}" ...)
      let parts2 ← formatted.mapM (fun fr => do
        let t ← kvGet fr "tool"
        let r ← kvGet fr "formatted_result"
        pure ("Information from " ++ pyStr t ++ ":\n" ++ pyStr r))
      pure (PyVal.str (String.intercalate "\n\n" parts2))

/-- The fixed empty-results fallback message of execute_plan (line 47). -/
def fallbackNoInfo : String :=
  "I couldn't find any relevant information. Please try again with a different query."

/-- PlanExecutor.execute_plan.  Returns the result (or raised exception)
together with the names of the tools actually invoked, in order.
`original_query` models `self._interaction_manager.get_last_interaction().query`. -/
def peExecutePlan (reg : Registry) (gen : String → Except Unit String)
    (original_query : String) (plan : Plan) : Except PyErr PyVal × List String :=
  if plan.requires_tools = false then
    (match plan.direct_response with
     | some s => Except.ok (PyVal.dict [("response", PyVal.str s), ("status", PyVal.str "success")])
     | Option.none => Except.error (PyErr.keyError "direct_response"),
     [])
  else
    match plan.tool_calls with
    | Option.none => (Except.error (PyErr.keyError "tool_calls"), [])
    | some calls =>
      let tool_results := collectToolResults reg calls
      let inv := invokedTools reg calls
      if tool_results.isEmpty then
        (Except.ok (PyVal.str fallbackNoInfo), inv)
      else
        (peSynthesizeResults gen original_query tool_results, inv)

/-- Externally observable calls made while executing one query. -/
inductive AgentEvent where
  | planCall (isRevision : Bool)
  | reflectCall
  | toolCall (name : String)
  | verdictAppend (synthetic : Bool) (requiresChanges : Bool)
deriving Repr, DecidableEq

/-- Outcome of one `get_plan` call, as seen by the caller: the call raised;
it returned a falsy value (empty string, or the `{}` of its decode-failure
branch); it returned a truthy string that `json.loads` rejects (or whose parse
does not behave as a plan dict); or it returned a string parsing to a plan.
The message feeds the synthetic verdict text `str(e)`. -/
inductive PlanCallResult where
  | raises (msg : String)
  | falsy
  | badJson (msg : String)
  | parsed (p : Plan)
deriving Repr

/-- Outcome of one `reflect_on_plan` call as seen by the caller: the call
raised or its verdict is unparseable (both land in the same except-branch), or
it yielded a parsed verdict. -/
inductive ReflectCallResult where
  | fails (msg : String)
  | parsed (v : Verdict)
deriving Repr

/-- Environment for one Agent.execute run: the safety classification and the
successive responses of the planner and critique calls.  (Exhausting a
response list is modelled as the corresponding call failing.) -/
structure AgentEnv where
  safety : String
  planResponses : List PlanCallResult
  reflectResponses : List ReflectCallResult
deriving Repr

def popPlan : List PlanCallResult → PlanCallResult × List PlanCallResult
  | [] => (PlanCallResult.raises "no response", [])
  | r :: rest => (r, rest)

def popRefl : List ReflectCallResult → ReflectCallResult × List ReflectCallResult
  | [] => (ReflectCallResult.fails "no response", [])
  | r :: rest => (r, rest)

/-- The synthetic verdict recorded when a reflection iteration fails
(`{"reflection": f"Reflection failed due to error: {e}", "requires_changes": False}`). -/
def syntheticVerdict (msg : String) : Verdict :=
  { requires_changes := false, reflection := "Reflection failed due to error: " ++ msg }

/-- State threaded through the reflection loop. -/
structure ReflCore where
  current_plan : Plan
  reflection_history : List Verdict
  planResponses : List PlanCallResult
  reflectResponses : List ReflectCallResult

/-- The reflection loop of Agent.execute (agent.py lines 361-413), one `Nat` of
fuel per `range(max_reflection_iterations)` index.  Each iteration: critique
call; on failure append the synthetic verdict and continue; on a parsed verdict
append it, break if no changes required, otherwise issue a revision planner
call (keep the plan and continue on a falsy revision, append a synthetic
verdict and continue if the revision raises or is unparseable, adopt it
otherwise).  Returns the final state and the events of the loop. -/
def agentReflLoop : Nat → ReflCore → ReflCore × List AgentEvent
  | 0, st => (st, [])
  | Nat.succ n, st =>
    match popRefl st.reflectResponses with
    | (ReflectCallResult.fails msg, rs) =>
      let next := agentReflLoop n { st with
        reflection_history := st.reflection_history ++ [syntheticVerdict msg],
        reflectResponses := rs }
      (next.1, AgentEvent.reflectCall :: AgentEvent.verdictAppend true false :: next.2)
    | (ReflectCallResult.parsed v, rs) =>
      if v.requires_changes = false then
        ({ st with reflection_history := st.reflection_history ++ [v], reflectResponses := rs },
         [AgentEvent.reflectCall, AgentEvent.verdictAppend false false])
      else
        match popPlan st.planResponses with
        | (PlanCallResult.raises msg, ps) =>
          let next := agentReflLoop n { st with
            reflection_history := st.reflection_history ++ [v, syntheticVerdict msg],
            planResponses := ps, reflectResponses := rs }
          (next.1, AgentEvent.reflectCall :: AgentEvent.verdictAppend false true ::
            AgentEvent.planCall true :: AgentEvent.verdictAppend true false :: next.2)
        | (PlanCallResult.falsy, ps) =>
          let next := agentReflLoop n { st with
            reflection_history := st.reflection_history ++ [v],
            planResponses := ps, reflectResponses := rs }
          (next.1, AgentEvent.reflectCall :: AgentEvent.verdictAppend false true ::
            AgentEvent.planCall true :: next.2)
        | (PlanCallResult.badJson msg, ps) =>
          let next := agentReflLoop n { st with
            reflection_history := st.reflection_history ++ [v, syntheticVerdict msg],
            planResponses := ps, reflectResponses := rs }
          (next.1, AgentEvent.reflectCall :: AgentEvent.verdictAppend false true ::
            AgentEvent.planCall true :: AgentEvent.verdictAppend true false :: next.2)
        | (PlanCallResult.parsed p, ps) =>
          let next := agentReflLoop n { st with
            current_plan := p,
            reflection_history := st.reflection_history ++ [v],
            planResponses := ps, reflectResponses := rs }
          (next.1, AgentEvent.reflectCall :: AgentEvent.verdictAppend false true ::
            AgentEvent.planCall true :: next.2)

/-- The reflection loop of ReflectionEngine.reflect_and_improve
(reflection_engine.py lines 60-112); identical control flow to the agent's
inline loop. -/
def reflEngineLoop : Nat → ReflCore → ReflCore × List AgentEvent
  | 0, st => (st, [])
  | Nat.succ n, st =>
    match popRefl st.reflectResponses with
    | (ReflectCallResult.fails msg, rs) =>
      let next := reflEngineLoop n { st with
        reflection_history := st.reflection_history ++ [syntheticVerdict msg],
        reflectResponses := rs }
      (next.1, AgentEvent.reflectCall :: AgentEvent.verdictAppend true false :: next.2)
    | (ReflectCallResult.parsed v, rs) =>
      if v.requires_changes = false then
        ({ st with reflection_history := st.reflection_history ++ [v], reflectResponses := rs },
         [AgentEvent.reflectCall, AgentEvent.verdictAppend false false])
      else
        match popPlan st.planResponses with
        | (PlanCallResult.raises msg, ps) =>
          let next := reflEngineLoop n { st with
            reflection_history := st.reflection_history ++ [v, syntheticVerdict msg],
            planResponses := ps, reflectResponses := rs }
          (next.1, AgentEvent.reflectCall :: AgentEvent.verdictAppend false true ::
            AgentEvent.planCall true :: AgentEvent.verdictAppend true false :: next.2)
        | (PlanCallResult.falsy, ps) =>
          let next := reflEngineLoop n { st with
            reflection_history := st.reflection_history ++ [v],
            planResponses := ps, reflectResponses := rs }
          (next.1, AgentEvent.reflectCall :: AgentEvent.verdictAppend false true ::
            AgentEvent.planCall true :: next.2)
        | (PlanCallResult.badJson msg, ps) =>
          let next := reflEngineLoop n { st with
            reflection_history := st.reflection_history ++ [v, syntheticVerdict msg],
            planResponses := ps, reflectResponses := rs }
          (next.1, AgentEvent.reflectCall :: AgentEvent.verdictAppend false true ::
            AgentEvent.planCall true :: AgentEvent.verdictAppend true false :: next.2)
        | (PlanCallResult.parsed p, ps) =>
          let next := reflEngineLoop n { st with
            current_plan := p,
            reflection_history := st.reflection_history ++ [v],
            planResponses := ps, reflectResponses := rs }
          (next.1, AgentEvent.reflectCall :: AgentEvent.verdictAppend false true ::
            AgentEvent.planCall true :: next.2)

/-- Output record of reflect_and_improve: `{"final_plan": ..., "reflection_history": ...}`. -/
structure ReflOutput where
  final_plan : Plan
  reflection_history : List Verdict

/-- ReflectionEngine.reflect_and_improve.  `system_prompt` only shapes the
prompt text sent to the gateway, whose responses are environment-supplied. -/
def reflectAndImprove (user_query : String) (initial_plan : Plan) (system_prompt : String)
    (ps : List PlanCallResult) (rs : List ReflectCallResult)
    (max_reflection_iterations : Int) : ReflOutput × List AgentEvent :=
  let r := reflEngineLoop max_reflection_iterations.toNat
    { current_plan := initial_plan, reflection_history := [],
      planResponses := ps, reflectResponses := rs }
  ({ final_plan := r.1.current_plan, reflection_history := r.1.reflection_history }, r.2)

def optField (o : Option α) (k : String) : Except PyErr α :=
  match o with
  | some v => Except.ok v
  | Option.none => Except.error (PyErr.keyError k)

/-- "Reflection {i+1}: {reflection['reflection']}" pieces of the final summary. -/
def reflSummaryParts : Nat → List Verdict → List String
  | _, [] => []
  | i, v :: rest => ("Reflection " ++ toString (i + 1) ++ ": " ++ v.reflection) ::
      reflSummaryParts (i + 1) rest

/-- Agent.execute lines 438-456: the final-content block (computed for
printing; its exceptions propagate) followed by the returned summary string.
`results[0]` on an empty collection raises IndexError. -/
def agentBuildReturn (initial_plan final_plan : Plan) (hist : List Verdict)
    (results : List PyVal) : Except PyErr PyVal := do
  match results.head? with
  | Option.none => Except.error PyErr.indexError
  | some r0 => do
    let b ← pyInStrKey "enriched_results" r0
    let _final_content ←
      (if b then do
        let er ← pyGetItemStr r0 "enriched_results"
        let items ← pyIterate er
        let parts ← items.mapM (fun item => do
          let t ← pyGetItemStr item "title"
          let s ← pyGetItemStr item "summary"
          pure (pyStr t ++ ":\n" ++ pyStr s ++ "\n\n"))
        pure (PyVal.str (String.join parts))
      else
        pyGetItemStr r0 "summary")
    let reflection_summary := String.intercalate "\n\n" (reflSummaryParts 0 hist)
    let thought ← optField initial_plan.thought "thought"
    let iSteps ← optField initial_plan.plan "plan"
    let fSteps ← optField final_plan.plan "plan"
    let resultsJoined ← pyJoinStrs ". " results
    pure (PyVal.str ("Initial Thought: " ++ thought ++ "\n\nInitial Plan: " ++
      String.intercalate ". " iSteps ++ "\n\nReflection Process: " ++ reflection_summary ++
      "\n\nFinal Plan: " ++ String.intercalate ". " fSteps ++ "\n\nResults: " ++
      resultsJoined ++ "\n            "))

/-- Agent.execute lines 425-456: everything after the reflection loop.  Tool
invocations all occur before any exception of the final-content block, so their
events are reported even when a later step raises. -/
def agentFinalSection (reg : Registry) (initial_plan final_plan : Plan)
    (hist : List Verdict) : Except PyErr PyVal × List AgentEvent :=
  if final_plan.requires_tools = false then
    (match final_plan.direct_response with
     | some s => Except.ok (PyVal.str s)
     | Option.none => Except.error (PyErr.keyError "direct_response"),
     [])
  else
    match final_plan.tool_calls with
    | Option.none => (Except.error (PyErr.keyError "tool_calls"), [])
    | some calls =>
      let results := agentCollectResults reg calls
      (agentBuildReturn initial_plan final_plan hist results,
       calls.map (fun c => AgentEvent.toolCall c.tool))

/-- The body of Agent.execute's try-block (agent.py lines 333-457). -/
def agentTryBody (reg : Registry) (env : AgentEnv) (user_query : String)
    (max_reflection_iterations : Int) : Except PyErr PyVal × List AgentEvent :=
  match popPlan env.planResponses with
  | (PlanCallResult.raises _, _) => (Except.error PyErr.generic, [AgentEvent.planCall false])
  | (PlanCallResult.falsy, _) => (Except.error PyErr.valueError, [AgentEvent.planCall false])
  | (PlanCallResult.badJson _, _) => (Except.error PyErr.valueError, [AgentEvent.planCall false])
  | (PlanCallResult.parsed initial_plan, planRest) =>
    if initial_plan.requires_tools = false then
      (match initial_plan.direct_response with
       | some s => Except.ok (PyVal.str s)
       | Option.none => Except.error (PyErr.keyError "direct_response"),
       [AgentEvent.planCall false])
    else
      let loop := agentReflLoop max_reflection_iterations.toNat
        { current_plan := initial_plan, reflection_history := [],
          planResponses := planRest, reflectResponses := env.reflectResponses }
      let fin := agentFinalSection reg initial_plan loop.1.current_plan
        loop.1.reflection_history
      (fin.1, AgentEvent.planCall false :: (loop.2 ++ fin.2))

/-- Agent.execute (agent.py lines 325-460): safety short-circuit on an unsafe
classification, then the try-block; any exception of the try-block is caught
by the top-level handler, which logs and falls through — the call then returns
Python `None` (modelled as `PyVal.none`). -/
def agentExecute (reg : Registry) (env : AgentEnv) (user_query : String)
    (max_reflection_iterations : Int) : PyVal × List AgentEvent :=
  if subCL "unsafe".data env.safety.data then
    (PyVal.str "the answer contains harmful content.", [])
  else
    match agentTryBody reg env user_query max_reflection_iterations with
    | (Except.ok v, tr) => (v, tr)
    | (Except.error _, tr) => (PyVal.none, tr)

/-! ### Trace predicates -/

def isPlanCall : AgentEvent → Bool
  | AgentEvent.planCall _ => true
  | _ => false

/-- A revision planner call (get_plan with a previous plan and feedback). -/
def isRevision : AgentEvent → Bool
  | AgentEvent.planCall true => true
  | _ => false

/-- A genuine (non-synthetic) verdict with requires_changes = false appended. -/
def isGenuineFalse : AgentEvent → Bool
  | AgentEvent.verdictAppend false false => true
  | _ => false

/-- Any verdict with requires_changes = false appended (genuine or synthetic). -/
def isFalseVerdict : AgentEvent → Bool
  | AgentEvent.verdictAppend _ false => true
  | _ => false

def isReflectCall : AgentEvent → Bool
  | AgentEvent.reflectCall => true
  | _ => false

def countPlanCalls (l : List AgentEvent) : Nat := (l.filter isPlanCall).length

def countReflectCalls (l : List AgentEvent) : Nat := (l.filter isReflectCall).length

def hasRevision (l : List AgentEvent) : Bool := l.any isRevision

/-- No revision call occurs anywhere after a genuine requires_changes = false
verdict has been appended. -/
def noRevAfterGenuineFalse : List AgentEvent → Bool
  | [] => true
  | e :: rest => (!(isGenuineFalse e) || !(hasRevision rest)) && noRevAfterGenuineFalse rest

/-- No revision call occurs anywhere after any requires_changes = false verdict
(genuine or synthetic) has been appended — the claim C5 as stated. -/
def noRevAfterFalseVerdict : List AgentEvent → Bool
  | [] => true
  | e :: rest => (!(isFalseVerdict e) || !(hasRevision rest)) && noRevAfterFalseVerdict rest

/-! ### Concrete inputs used by the per-claim witnesses and counterexamples -/

/-- A registry with no tools registered. -/
def emptyRegistry : Registry := fun _ => Option.none

/-- A synthesis gateway whose call always succeeds. -/
def genOk : String → Except Unit String := fun _ => Except.ok "synthesized answer"

/-- A synthesis gateway whose call always raises. -/
def genFail : String → Except Unit String := fun _ => Except.error ()

/-- Environment for C1: safe query, planner responds with a non-JSON body. -/
def envC1 : AgentEnv :=
  { safety := "safe"
    planResponses := [PlanCallResult.badJson "Expecting value: line 1 column 1 (char 0)"]
    reflectResponses := [] }

/-- Environment for C2's witness: classification starting with `unsafe`. -/
def envC2 : AgentEnv :=
  { safety := "unsafe\nS1"
    planResponses := []
    reflectResponses := [] }

/-- Tool calls for C3's witness: a single entry naming an unregistered tool. -/
def callsC3 : List ToolCallSpec :=
  [{ tool := "google_search", args := PyVal.dict [("search_query", PyVal.str "x")] }]

/-- Plan for C3's witness: one tool call naming an unregistered tool. -/
def planC3 : Plan :=
  { requires_tools := true
    direct_response := Option.none
    thought := Option.none
    plan := Option.none
    tool_calls := some callsC3 }

/-- C4 failing input: the collected tool_results of two succeeding tools. -/
def toolResultsC4 : List ToolResultEntry :=
  [{ tool := "google_search", result := PyVal.dict [("summary", PyVal.str "A")] },
   { tool := "get_weather", result := PyVal.str "sunny" }]

/-- C4: registry whose two tools return the results above. -/
def regC4 : Registry := fun name =>
  if name == "google_search" then some (fun _ => PyVal.dict [("summary", PyVal.str "A")])
  else if name == "get_weather" then some (fun _ => PyVal.str "sunny")
  else Option.none

def planC4 : Plan :=
  { requires_tools := true
    direct_response := Option.none
    thought := Option.none
    plan := Option.none
    tool_calls := some [{ tool := "google_search", args := PyVal.dict [] },
      { tool := "get_weather", args := PyVal.dict [("location", PyVal.str "Paris")] }] }

/-- Tool-requiring plans for C5's counterexample. -/
def planC5a : Plan :=
  { requires_tools := true
    direct_response := Option.none
    thought := some "search first"
    plan := some ["use google_search"]
    tool_calls := some [{ tool := "google_search", args := PyVal.dict [] }] }

def planC5b : Plan := { planC5a with thought := some "revised" }

/-- C5 counterexample environment: iteration 1's critique call fails (synthetic
requires_changes = false verdict appended), iteration 2's verdict requires
changes, so a revision call is issued after that false verdict. -/
def envC5 : AgentEnv :=
  { safety := "safe"
    planResponses := [PlanCallResult.parsed planC5a, PlanCallResult.parsed planC5b]
    reflectResponses := [ReflectCallResult.fails "boom",
      ReflectCallResult.parsed { requires_changes := true, reflection := "use a better tool" },
      ReflectCallResult.parsed { requires_changes := false, reflection := "looks good" }] }

/-- Direct-response plan for C7's counterexample and C8's witness. -/
def planDirect : Plan :=
  { requires_tools := false
    direct_response := some "The capital of Canada is Ottawa."
    thought := Option.none
    plan := Option.none
    tool_calls := Option.none }

def envC7 : AgentEnv :=
  { safety := "safe"
    planResponses := [PlanCallResult.parsed planDirect]
    reflectResponses := [] }

def envC8 : AgentEnv :=
  { safety := "safe"
    planResponses := [PlanCallResult.parsed planDirect]
    reflectResponses := [] }

/-- C9 witness registry: only wikipedia_search is registered. -/
def regC9 : Registry := fun name =>
  if name == "wikipedia_search" then some (fun _ => PyVal.dict [("summary", PyVal.str "W")])
  else Option.none

def callC9google : ToolCallSpec := { tool := "google_search", args := PyVal.dict [] }

def callC9wiki : ToolCallSpec := { tool := "wikipedia_search", args := PyVal.dict [("query", PyVal.str "x")] }

def planC9 : Plan :=
  { requires_tools := true
    direct_response := Option.none
    thought := Option.none
    plan := Option.none
    tool_calls := some ([] ++ callC9google :: [callC9wiki]) }

def planC9' : Plan := { planC9 with tool_calls := some ([] ++ [callC9wiki]) }

/-- C10 witness registries: the same single tool, returning an empty string in
one and the failure sentinel `False` in the other. -/
def regC10a : Registry := fun name =>
  if name = "wikipedia_search" then some (fun _ => PyVal.str "") else Option.none

def regC10b : Registry := fun name =>
  if name = "wikipedia_search" then some (fun _ => PyVal.bool false) else Option.none

def callsC10 : List ToolCallSpec := [{ tool := "wikipedia_search", args := PyVal.dict [] }]

def planC10 : Plan :=
  { requires_tools := true
    direct_response := Option.none
    thought := Option.none
    plan := Option.none
    tool_calls := some callsC10 }

/-! ### Helper lemmas -/

theorem prefixOfCL_subCL (n s : List Char) (h : prefixOfCL n s = true) :
    subCL n s = true := by
  cases s with
  | nil =>
    cases n with
    | nil => rfl
    | cons a as => simp [prefixOfCL] at h
  | cons c rest => simp [subCL, h]

theorem hasRevision_append (a b : List AgentEvent) :
    hasRevision (a ++ b) = (hasRevision a || hasRevision b) := by
  simp [hasRevision, List.any_append]

theorem noRevAfterGenuineFalse_append (a b : List AgentEvent)
    (ha : noRevAfterGenuineFalse a = true) (hb : hasRevision b = false)
    (hb2 : noRevAfterGenuineFalse b = true) :
    noRevAfterGenuineFalse (a ++ b) = true := by
  induction a with
  | nil => simpa using hb2
  | cons e rest ih =>
    rw [List.cons_append]
    simp only [noRevAfterGenuineFalse, Bool.and_eq_true] at ha ⊢
    refine ⟨?_, ih ha.2⟩
    rw [hasRevision_append, hb]
    simpa using ha.1

theorem agentReflLoop_noRevGF (n : Nat) : ∀ st : ReflCore,
    noRevAfterGenuineFalse (agentReflLoop n st).2 = true := by
  induction n with
  | zero => intro st; rfl
  | succ n ih =>
    intro st
    rcases st with ⟨cur, hist, ps, rs⟩
    cases rs with
    | nil =>
      simp [agentReflLoop, popRefl, noRevAfterGenuineFalse, isGenuineFalse, ih]
    | cons r rs =>
      cases r with
      | fails msg =>
        simp [agentReflLoop, popRefl, noRevAfterGenuineFalse, isGenuineFalse, ih]
      | parsed v =>
        by_cases hv : v.requires_changes = false
        · simp [agentReflLoop, popRefl, hv, noRevAfterGenuineFalse, isGenuineFalse,
            hasRevision, isRevision]
        · cases ps with
          | nil =>
            simp [agentReflLoop, popRefl, popPlan, hv, noRevAfterGenuineFalse,
              isGenuineFalse, ih]
          | cons p ps =>
            cases p <;>
              simp [agentReflLoop, popRefl, popPlan, hv, noRevAfterGenuineFalse,
                isGenuineFalse, ih]

theorem reflEngineLoop_noRevGF (n : Nat) : ∀ st : ReflCore,
    noRevAfterGenuineFalse (reflEngineLoop n st).2 = true := by
  induction n with
  | zero => intro st; rfl
  | succ n ih =>
    intro st
    rcases st with ⟨cur, hist, ps, rs⟩
    cases rs with
    | nil =>
      simp [reflEngineLoop, popRefl, noRevAfterGenuineFalse, isGenuineFalse, ih]
    | cons r rs =>
      cases r with
      | fails msg =>
        simp [reflEngineLoop, popRefl, noRevAfterGenuineFalse, isGenuineFalse, ih]
      | parsed v =>
        by_cases hv : v.requires_changes = false
        · simp [reflEngineLoop, popRefl, hv, noRevAfterGenuineFalse, isGenuineFalse,
            hasRevision, isRevision]
        · cases ps with
          | nil =>
            simp [reflEngineLoop, popRefl, popPlan, hv, noRevAfterGenuineFalse,
              isGenuineFalse, ih]
          | cons p ps =>
            cases p <;>
              simp [reflEngineLoop, popRefl, popPlan, hv, noRevAfterGenuineFalse,
                isGenuineFalse, ih]

theorem agentReflLoop_head (n : Nat) (st : ReflCore) :
    ((agentReflLoop (n + 1) st).2).head? = some AgentEvent.reflectCall := by
  rcases st with ⟨cur, hist, ps, rs⟩
  cases rs with
  | nil => rfl
  | cons r rs =>
    cases r with
    | fails msg => rfl
    | parsed v =>
      by_cases hv : v.requires_changes = false
      · simp [agentReflLoop, popRefl, hv]
      · cases ps with
        | nil => simp [agentReflLoop, popRefl, popPlan, hv]
        | cons p ps => cases p <;> simp [agentReflLoop, popRefl, popPlan, hv]

theorem reflEngineLoop_head (n : Nat) (st : ReflCore) :
    ((reflEngineLoop (n + 1) st).2).head? = some AgentEvent.reflectCall := by
  rcases st with ⟨cur, hist, ps, rs⟩
  cases rs with
  | nil => rfl
  | cons r rs =>
    cases r with
    | fails msg => rfl
    | parsed v =>
      by_cases hv : v.requires_changes = false
      · simp [reflEngineLoop, popRefl, hv]
      · cases ps with
        | nil => simp [reflEngineLoop, popRefl, popPlan, hv]
        | cons p ps => cases p <;> simp [reflEngineLoop, popRefl, popPlan, hv]

theorem hasRevision_toolEvents (calls : List ToolCallSpec) :
    hasRevision (calls.map (fun c => AgentEvent.toolCall c.tool)) = false := by
  induction calls with
  | nil => rfl
  | cons c rest ih => simpa [hasRevision, isRevision] using ih

theorem noRevGF_toolEvents (calls : List ToolCallSpec) :
    noRevAfterGenuineFalse (calls.map (fun c => AgentEvent.toolCall c.tool)) = true := by
  induction calls with
  | nil => rfl
  | cons c rest ih => simpa [noRevAfterGenuineFalse, isGenuineFalse] using ih

theorem agentFinalSection_events (reg : Registry) (ip fp : Plan) (hist : List Verdict) :
    hasRevision (agentFinalSection reg ip fp hist).2 = false ∧
    noRevAfterGenuineFalse (agentFinalSection reg ip fp hist).2 = true := by
  unfold agentFinalSection
  by_cases h : fp.requires_tools = false
  · simp [h, hasRevision, noRevAfterGenuineFalse]
  · cases hc : fp.tool_calls with
    | none => simp [h, hc, hasRevision, noRevAfterGenuineFalse]
    | some calls => simp [h, hc, hasRevision_toolEvents, noRevGF_toolEvents]

theorem agentTryBody_noRevGF (reg : Registry) (env : AgentEnv) (q : String) (m : Int) :
    noRevAfterGenuineFalse (agentTryBody reg env q m).2 = true := by
  unfold agentTryBody
  rcases hp : popPlan env.planResponses with ⟨r, rest⟩
  cases r with
  | raises msg => simp [noRevAfterGenuineFalse, isGenuineFalse]
  | falsy => simp [noRevAfterGenuineFalse, isGenuineFalse]
  | badJson msg => simp [noRevAfterGenuineFalse, isGenuineFalse]
  | parsed p =>
    by_cases h : p.requires_tools = false
    · simp [h, noRevAfterGenuineFalse, isGenuineFalse]
    · simp only [h, if_false, noRevAfterGenuineFalse, isGenuineFalse, Bool.and_eq_true]
      constructor
      · simp
      · exact noRevAfterGenuineFalse_append _ _ (agentReflLoop_noRevGF _ _)
          (agentFinalSection_events reg p _ _).1 (agentFinalSection_events reg p _ _).2

theorem agentExecute_noRevGF (reg : Registry) (env : AgentEnv) (q : String) (m : Int) :
    noRevAfterGenuineFalse (agentExecute reg env q m).2 = true := by
  unfold agentExecute
  by_cases hs : subCL "unsafe".data env.safety.data = true
  · simp [hs, noRevAfterGenuineFalse]
  · rcases h : agentTryBody reg env q m with ⟨res, tr⟩
    have h2 := agentTryBody_noRevGF reg env q m
    rw [h] at h2
    cases res <;> simp [hs, h] <;> exact h2

theorem collectToolResults_allFalsy (reg : Registry) (calls : List ToolCallSpec)
    (h : ∀ c ∈ calls, truthy (execTool reg c.tool c.args) = false) :
    collectToolResults reg calls = [] := by
  induction calls with
  | nil => rfl
  | cons c rest ih =>
    have hc := h c (by simp)
    simp only [collectToolResults, hc, if_false]
    exact ih (fun c' hc' => h c' (by simp [hc']))

theorem collectToolResults_skip (reg : Registry) (c : ToolCallSpec)
    (h : reg c.tool = Option.none) (pre rest : List ToolCallSpec) :
    collectToolResults reg (pre ++ c :: rest) = collectToolResults reg (pre ++ rest) := by
  induction pre with
  | nil => simp [collectToolResults, execTool, h, truthy]
  | cons a pre ih => simp [collectToolResults, ih]

theorem invokedTools_skip (reg : Registry) (c : ToolCallSpec)
    (h : reg c.tool = Option.none) (pre rest : List ToolCallSpec) :
    invokedTools reg (pre ++ c :: rest) = invokedTools reg (pre ++ rest) := by
  induction pre with
  | nil => simp [invokedTools, h]
  | cons a pre ih =>
    cases ha : reg a.tool <;> simp [invokedTools, ha, ih]

theorem invokedTools_filterMap (reg : Registry) (l : List ToolCallSpec) :
    invokedTools reg l = l.filterMap
      (fun tc => if (reg tc.tool).isSome then some tc.tool else Option.none) := by
  induction l with
  | nil => rfl
  | cons c rest ih =>
    cases h : reg c.tool with
    | none => simp [invokedTools, h, ih]
    | some f => simp [invokedTools, h, ih]

theorem peExecutePlan_toolPath (reg : Registry) (gen : String → Except Unit String)
    (q : String) (p : Plan) (calls : List ToolCallSpec)
    (h1 : p.requires_tools = true) (h2 : p.tool_calls = some calls) :
    peExecutePlan reg gen q p
      = (if (collectToolResults reg calls).isEmpty then
          (Except.ok (PyVal.str fallbackNoInfo), invokedTools reg calls)
        else
          (peSynthesizeResults gen q (collectToolResults reg calls), invokedTools reg calls)) := by
  simp [peExecutePlan, h1, h2]

/-! ### Claim theorems -/

/-- C1: the code_bug evidence.  For a safe query whose planner response is
malformed (non-JSON), Agent.execute catches the resulting exception at the top
level but then returns Python `None` — not a structured result carrying
`status = "failed"` and a populated `error` field as the claim states
(`PyVal.none` is not a dict at all). -/
theorem c1_malformed_plan_returns_none :
    agentExecute emptyRegistry envC1 "latest news about the waqf board" 3
      = (PyVal.none, [AgentEvent.planCall false]) := rfl

/-- C2: if the safety classification starts with `unsafe`, Agent.execute
short-circuits before planning: zero planner calls are issued for the query. -/
theorem c2_unsafe_short_circuits_planner (reg : Registry) (env : AgentEnv)
    (q : String) (m : Int)
    (h : prefixOfCL "unsafe".data env.safety.data = true) :
    countPlanCalls (agentExecute reg env q m).2 = 0 := by
  have hs : subCL "unsafe".data env.safety.data = true := prefixOfCL_subCL _ _ h
  simp [agentExecute, hs, countPlanCalls]

theorem c2_witness :
    prefixOfCL "unsafe".data (AgentEnv.safety envC2).data = true ∧
    countPlanCalls (agentExecute emptyRegistry envC2 "how do I hack a WiFi" 3).2 = 0 :=
  ⟨by decide, c2_unsafe_short_circuits_planner emptyRegistry envC2 "how do I hack a WiFi" 3 (by decide)⟩

/-- C3: for a tool-requiring plan in which every tool_calls entry is skipped or
returns the failure sentinel (every invocation result is falsy), zero results
are collected and PlanExecutor.execute_plan returns the fixed fallback message
instead of indexing the empty collection. -/
theorem c3_empty_results_fallback (reg : Registry) (gen : String → Except Unit String)
    (q : String) (p : Plan) (calls : List ToolCallSpec)
    (h1 : p.requires_tools = true) (h2 : p.tool_calls = some calls)
    (h3 : ∀ c ∈ calls, truthy (execTool reg c.tool c.args) = false) :
    (peExecutePlan reg gen q p).1 = Except.ok (PyVal.str fallbackNoInfo) := by
  have hcol := collectToolResults_allFalsy reg calls h3
  simp [peExecutePlan, h1, h2, hcol]

theorem c3_witness :
    planC3.requires_tools = true ∧ planC3.tool_calls = some callsC3 ∧
    (∀ c ∈ callsC3, truthy (execTool emptyRegistry c.tool c.args) = false) ∧
    (peExecutePlan emptyRegistry genOk "recent news" planC3).1
      = Except.ok (PyVal.str fallbackNoInfo) :=
  ⟨rfl, rfl, by decide,
   c3_empty_results_fallback emptyRegistry genOk "recent news" planC3 callsC3 rfl rfl (by decide)⟩

/-- C4: the code_bug evidence.  With two collected tool results and a failing
synthesis call, the fallback branch of _synthesize_results looks up
`fr["formatted_result"]` on entries built with keys `"tool"`/`"result"`, so a
KeyError propagates out of the executor instead of the labeled concatenation
being returned. -/
theorem c4_synthesis_fallback_keyerror :
    peSynthesizeResults genFail "some query" toolResultsC4
      = Except.error (PyErr.keyError "formatted_result") ∧
    peExecutePlan regC4 genFail "some query" planC4
      = (Except.error (PyErr.keyError "formatted_result"), ["google_search", "get_weather"]) :=
  ⟨rfl, rfl⟩

/-- C5: the counterexample.  In envC5 iteration 1's critique call fails, so a
synthetic verdict with requires_changes = false is appended to the reflection
history; the loop continues, and iteration 2's verdict requires changes, so a
revision call (planCall true) is issued after that false verdict — refuting
the claim that no further revision call occurs once a requires_changes = false
verdict has been appended. -/
theorem c5_synthetic_false_verdict_then_revision :
    (agentExecute emptyRegistry envC5 "latest news" 3).2
      = [AgentEvent.planCall false, AgentEvent.reflectCall,
         AgentEvent.verdictAppend true false, AgentEvent.reflectCall,
         AgentEvent.verdictAppend false true, AgentEvent.planCall true,
         AgentEvent.reflectCall, AgentEvent.verdictAppend false false,
         AgentEvent.toolCall "google_search"] ∧
    noRevAfterFalseVerdict (agentExecute emptyRegistry envC5 "latest news" 3).2 = false :=
  ⟨rfl, rfl⟩

/-- C5 (amended): once a verdict parsed from a successful critique call with
requires_changes = false has been appended, the loop breaks and no further
revision call occurs — in both Agent.execute's inline loop and
ReflectionEngine.reflect_and_improve.  (A synthetic failure verdict also has
requires_changes = false but does not terminate the loop.) -/
theorem c5_amended_no_revision_after_genuine_false :
    (∀ (reg : Registry) (env : AgentEnv) (q : String) (m : Int),
      noRevAfterGenuineFalse (agentExecute reg env q m).2 = true) ∧
    (∀ (q : String) (p : Plan) (sp : String) (ps : List PlanCallResult)
      (rs : List ReflectCallResult) (m : Int),
      noRevAfterGenuineFalse (reflectAndImprove q p sp ps rs m).2 = true) :=
  ⟨fun reg env q m => agentExecute_noRevGF reg env q m,
   fun _ _ _ ps rs m => reflEngineLoop_noRevGF m.toNat _⟩

/-- C6: when the critique call of a reflection iteration fails (throws or its
verdict is unparseable), both loops append the synthetic verdict
`{reflection: "Reflection failed due to error: <msg>", requires_changes: false}`,
leave the current plan unchanged, consume the iteration (fuel n+1 becomes n),
and proceed: with at least one more iteration available the continuation
begins with another critique call (the event at position 2 of the trace). -/
theorem c6_failed_iteration_synthetic_verdict_continues
    (n : Nat) (cur : Plan) (hist : List Verdict) (ps : List PlanCallResult)
    (rs : List ReflectCallResult) (msg : String) :
    (reflEngineLoop (n + 1) ⟨cur, hist, ps, ReflectCallResult.fails msg :: rs⟩
      = ((reflEngineLoop n ⟨cur, hist ++ [syntheticVerdict msg], ps, rs⟩).1,
         AgentEvent.reflectCall :: AgentEvent.verdictAppend true false ::
           (reflEngineLoop n ⟨cur, hist ++ [syntheticVerdict msg], ps, rs⟩).2))
    ∧ (((reflEngineLoop (n + 2) ⟨cur, hist, ps, ReflectCallResult.fails msg :: rs⟩).2.drop 2).head?
      = some AgentEvent.reflectCall)
    ∧ (agentReflLoop (n + 1) ⟨cur, hist, ps, ReflectCallResult.fails msg :: rs⟩
      = ((agentReflLoop n ⟨cur, hist ++ [syntheticVerdict msg], ps, rs⟩).1,
         AgentEvent.reflectCall :: AgentEvent.verdictAppend true false ::
           (agentReflLoop n ⟨cur, hist ++ [syntheticVerdict msg], ps, rs⟩).2))
    ∧ (((agentReflLoop (n + 2) ⟨cur, hist, ps, ReflectCallResult.fails msg :: rs⟩).2.drop 2).head?
      = some AgentEvent.reflectCall) :=
  ⟨rfl, reflEngineLoop_head n _, rfl, agentReflLoop_head n _⟩

/-- C7: the counterexample.  With max_reflection_iterations = -1 the call is
not rejected: the planner is still called (planning work occurs) and the query
completes normally with the plan's direct response. -/
theorem c7_negative_iterations_not_rejected :
    agentExecute emptyRegistry envC7 "what is the capital of Canada" (-1)
      = (PyVal.str "The capital of Canada is Ottawa.", [AgentEvent.planCall false]) ∧
    countPlanCalls (agentExecute emptyRegistry envC7 "what is the capital of Canada" (-1)).2 = 1 :=
  ⟨rfl, rfl⟩

/-- C7 (amended): a negative max_reflection_iterations is accepted, not
rejected; `range` of a negative count is empty, so execute behaves exactly as
with max_reflection_iterations = 0 (planning and execution still occur, the
reflection loop body runs zero times). -/
theorem c7_amended_negative_acts_as_zero (reg : Registry) (env : AgentEnv)
    (q : String) (m : Int) (h : m < 0) :
    agentExecute reg env q m = agentExecute reg env q 0 := by
  have hm : m.toNat = (0 : Int).toNat := by omega
  unfold agentExecute agentTryBody
  rw [hm]

theorem c7_amended_witness :
    ((-1 : Int) < 0) ∧
    agentExecute emptyRegistry envC7 "what is the capital of Canada" (-1)
      = agentExecute emptyRegistry envC7 "what is the capital of Canada" 0 :=
  ⟨by decide,
   c7_amended_negative_acts_as_zero emptyRegistry envC7 "what is the capital of Canada" (-1) (by decide)⟩

/-- C8: when the initial plan has requires_tools = false (query safe, plan
parsed), Agent.execute returns the plan's direct_response with no reflection
call and no tool dispatch (the whole trace is the single initial planner
call), and PlanExecutor.execute_plan returns
`{response: direct_response, status: success}` immediately with zero tool
invocations. -/
theorem c8_direct_response_skips_tools_and_reflection
    (reg : Registry) (gen : String → Except Unit String) (env : AgentEnv)
    (q : String) (m : Int) (p : Plan) (rest : List PlanCallResult) (s : String)
    (hsafe : subCL "unsafe".data env.safety.data = false)
    (hplan : env.planResponses = PlanCallResult.parsed p :: rest)
    (hrt : p.requires_tools = false)
    (hdr : p.direct_response = some s) :
    agentExecute reg env q m = (PyVal.str s, [AgentEvent.planCall false]) ∧
    peExecutePlan reg gen q p
      = (Except.ok (PyVal.dict [("response", PyVal.str s), ("status", PyVal.str "success")]), []) := by
  constructor
  · simp [agentExecute, hsafe, agentTryBody, hplan, popPlan, hrt, hdr]
  · simp [peExecutePlan, hrt, hdr]

theorem c8_witness :
    subCL "unsafe".data (AgentEnv.safety envC8).data = false ∧
    planDirect.requires_tools = false ∧
    planDirect.direct_response = some "The capital of Canada is Ottawa." ∧
    agentExecute emptyRegistry envC8 "Where is the Eiffel Tower located?" 3
      = (PyVal.str "The capital of Canada is Ottawa.", [AgentEvent.planCall false]) ∧
    peExecutePlan emptyRegistry genOk "Where is the Eiffel Tower located?" planDirect
      = (Except.ok (PyVal.dict [("response", PyVal.str "The capital of Canada is Ottawa."),
          ("status", PyVal.str "success")]), []) := by
  have h := c8_direct_response_skips_tools_and_reflection emptyRegistry genOk envC8
    "Where is the Eiffel Tower located?" 3 planDirect [] "The capital of Canada is Ottawa."
    (by decide) rfl rfl rfl
  exact ⟨by decide, rfl, rfl, h.1, h.2⟩

/-- C9: a tool_calls entry naming an unregistered tool is skipped without
aborting plan execution: the result is identical to executing the plan with
that entry removed, and the invoked-tool trace is exactly the registered
entries of the full list, in listed order (so all remaining entries still
execute). -/
theorem c9_unregistered_tool_skipped_rest_execute
    (reg : Registry) (gen : String → Except Unit String) (q : String) (p : Plan)
    (pre rest : List ToolCallSpec) (c : ToolCallSpec)
    (h1 : p.requires_tools = true) (h2 : p.tool_calls = some (pre ++ c :: rest))
    (h3 : reg c.tool = Option.none) :
    peExecutePlan reg gen q p
      = peExecutePlan reg gen q { p with tool_calls := some (pre ++ rest) } ∧
    (peExecutePlan reg gen q p).2
      = (pre ++ c :: rest).filterMap
          (fun tc => if (reg tc.tool).isSome then some tc.tool else Option.none) := by
  have hcol := collectToolResults_skip reg c h3 pre rest
  have hinv := invokedTools_skip reg c h3 pre rest
  constructor
  · rw [peExecutePlan_toolPath reg gen q p (pre ++ c :: rest) h1 h2,
      peExecutePlan_toolPath reg gen q { p with tool_calls := some (pre ++ rest) }
        (pre ++ rest) h1 rfl, hcol, hinv]
  · rw [peExecutePlan_toolPath reg gen q p (pre ++ c :: rest) h1 h2,
      ← invokedTools_filterMap]
    split <;> rfl

theorem c9_witness :
    planC9.requires_tools = true ∧
    planC9.tool_calls = some ([] ++ callC9google :: [callC9wiki]) ∧
    regC9 callC9google.tool = Option.none ∧
    peExecutePlan regC9 genOk "who is Albert Einstein" planC9
      = peExecutePlan regC9 genOk "who is Albert Einstein" planC9' ∧
    (peExecutePlan regC9 genOk "who is Albert Einstein" planC9).2 = ["wikipedia_search"] := by
  have h := c9_unregistered_tool_skipped_rest_execute regC9 genOk "who is Albert Einstein"
    planC9 [] [callC9wiki] callC9google rfl rfl rfl
  refine ⟨rfl, rfl, rfl, ?_, ?_⟩
  · have e : planC9' = { planC9 with tool_calls := some ([] ++ [callC9wiki]) } := rfl
    rw [e]; exact h.1
  · rw [h.2]; rfl

/-- C10: any falsy tool return value is dropped from the collected results
exactly as the failure sentinel is: if two registries offer the same tools and
each tool either returns falsy values under both or the same value under both,
then Agent.execute's collected results, PlanExecutor.execute_plan's collected
results, and the executor's entire observable behaviour coincide — a
legitimately empty successful result is indistinguishable from a failure at
the executor boundary. -/
theorem c10_falsy_results_indistinguishable (R1 R2 : Registry)
    (h1 : ∀ name, (R1 name).isSome = (R2 name).isSome)
    (h2 : ∀ name f1 f2 args, R1 name = some f1 → R2 name = some f2 →
      (truthy (f1 args) = false ∧ truthy (f2 args) = false) ∨ f1 args = f2 args) :
    (∀ calls, agentCollectResults R1 calls = agentCollectResults R2 calls) ∧
    (∀ calls, collectToolResults R1 calls = collectToolResults R2 calls) ∧
    (∀ gen q p, peExecutePlan R1 gen q p = peExecutePlan R2 gen q p) := by
  have key : ∀ name args,
      (truthy (execTool R1 name args) = false ∧ truthy (execTool R2 name args) = false) ∨
      execTool R1 name args = execTool R2 name args := by
    intro name args
    cases hr : R1 name with
    | none =>
      cases hr2 : R2 name with
      | none => right; simp [execTool, hr, hr2]
      | some f => exfalso; have := h1 name; rw [hr, hr2] at this; simp at this
    | some f1 =>
      cases hr2 : R2 name with
      | none => exfalso; have := h1 name; rw [hr, hr2] at this; simp at this
      | some f2 =>
        rcases h2 name f1 f2 args hr hr2 with h | h
        · left; simpa [execTool, hr, hr2] using h
        · right; simp [execTool, hr, hr2, h]
  have hAgent : ∀ calls, agentCollectResults R1 calls = agentCollectResults R2 calls := by
    intro calls
    induction calls with
    | nil => rfl
    | cons c rest ih =>
      rcases key c.tool c.args with ⟨hf1, hf2⟩ | heq
      · simp [agentCollectResults, hf1, hf2, ih]
      · simp [agentCollectResults, heq, ih]
  have hCollect : ∀ calls, collectToolResults R1 calls = collectToolResults R2 calls := by
    intro calls
    induction calls with
    | nil => rfl
    | cons c rest ih =>
      rcases key c.tool c.args with ⟨hf1, hf2⟩ | heq
      · simp [collectToolResults, hf1, hf2, ih]
      · simp [collectToolResults, heq, ih]
  have hInv : ∀ calls, invokedTools R1 calls = invokedTools R2 calls := by
    intro calls
    induction calls with
    | nil => rfl
    | cons c rest ih =>
      have hn := h1 c.tool
      cases hr : R1 c.tool with
      | none =>
        cases hr2 : R2 c.tool with
        | none => simp [invokedTools, hr, hr2, ih]
        | some f => rw [hr, hr2] at hn; simp at hn
      | some f =>
        cases hr2 : R2 c.tool with
        | none => rw [hr, hr2] at hn; simp at hn
        | some f2 => simp [invokedTools, hr, hr2, ih]
  refine ⟨hAgent, hCollect, ?_⟩
  intro gen q p
  by_cases hrt : p.requires_tools = false
  · simp [peExecutePlan, hrt]
  · have hrt' : p.requires_tools = true := by
      cases h : p.requires_tools with
      | false => exact absurd h hrt
      | true => rfl
    cases hc : p.tool_calls with
    | none => simp [peExecutePlan, hrt', hc]
    | some calls =>
      rw [peExecutePlan_toolPath R1 gen q p calls hrt' hc,
        peExecutePlan_toolPath R2 gen q p calls hrt' hc, hCollect, hInv]

theorem c10_witness :
    (∀ name, (regC10a name).isSome = (regC10b name).isSome) ∧
    agentCollectResults regC10a callsC10 = agentCollectResults regC10b callsC10 ∧
    agentCollectResults regC10a callsC10 = [] ∧
    collectToolResults regC10a callsC10 = collectToolResults regC10b callsC10 ∧
    peExecutePlan regC10a genOk "tell me about relativity" planC10
      = peExecutePlan regC10b genOk "tell me about relativity" planC10 := by
  have h1 : ∀ name, (regC10a name).isSome = (regC10b name).isSome := by
    intro name
    by_cases h : name = "wikipedia_search" <;> simp [regC10a, regC10b, h]
  have h2 : ∀ name f1 f2 args, regC10a name = some f1 → regC10b name = some f2 →
      (truthy (f1 args) = false ∧ truthy (f2 args) = false) ∨ f1 args = f2 args := by
    intro name f1 f2 args e1 e2
    by_cases h : name = "wikipedia_search"
    · left
      simp [regC10a, h] at e1
      simp [regC10b, h] at e2
      subst e1
      subst e2
      exact ⟨rfl, rfl⟩
    · simp [regC10a, h] at e1
  have h := c10_falsy_results_indistinguishable regC10a regC10b h1 h2
  exact ⟨h1, h.1 callsC10, rfl, h.2.1 callsC10, h.2.2 genOk "tell me about relativity" planC10⟩
